import Mathlib

/-!
Verification of the OLAP-XTRCTR core against its specification.

The definitions below are a shallow embedding of the Python source:
  * `src/backend/utils.py`           — `parse_ranges`
  * `src/backend/DGIS_SCAN_2.py`     — `get_dimension_members`,
    `extract_levels_from_unique_names`, `_estimate_and_warn_cardinality`,
    and the MDX assembly of `interactive_hierarchical_builder`
  * `src/backend/olap_service.py`    — `_build_and_execute_query_sync`,
    `_build_level_mdx`

Python strings are modelled as Lean `String`s; all string manipulation
helpers (split, strip, count, …) are re-implemented below by structural
recursion over the character list so that every definition evaluates
inside the kernel.  Pandas data frames are modelled as a list of member
rows together with one boolean per optional column recording whether the
column is present in the snapshot (`'X' in df.columns` checks in the
source).  `pandas.sort_values` on a single column is modelled as a stable
insertion sort by that column; the source's sort is unspecified on ties,
and on the small frames relevant here numpy's sort is insertion sort as
well.
-/

deriving instance DecidableEq for Except

namespace OlapXtractr

open scoped List

/-! ### Character-list string primitives (Python string semantics) -/

/-- Whitespace characters recognised by Python's `str.strip()`. -/
def isPySpace (c : Char) : Bool :=
  c = ' ' || c = '\t' || c = '\n' || c = '\r' || c = '\x0b' || c = '\x0c'

/-- Python `str.strip()`. -/
def pyStrip (s : String) : String :=
  String.mk (((s.data.dropWhile isPySpace).reverse.dropWhile isPySpace).reverse)

/-- Helper for the splitters: prepend a character to the first group. -/
def consHead (c : Char) : List (List Char) → List (List Char)
  | [] => [[c]]
  | g :: gs => (c :: g) :: gs

/-- Python `str.split(sep)` for a one-character separator. -/
def splitChar (sep : Char) : List Char → List (List Char)
  | [] => [[]]
  | c :: rest =>
    if c = sep then [] :: splitChar sep rest
    else consHead c (splitChar sep rest)

/-- Python `s.split(',')` returning strings. -/
def splitComma (s : String) : List String :=
  (splitChar ',' s.data).map String.mk

/-- Python `s.split('.')` returning strings. -/
def splitDot (s : String) : List String :=
  (splitChar '.' s.data).map String.mk

/-- Python `s.split('.&[')` (non-overlapping, left to right). -/
def splitDotAmpAux : List Char → List (List Char)
  | '.' :: '&' :: '[' :: rest => [] :: splitDotAmpAux rest
  | c :: rest => consHead c (splitDotAmpAux rest)
  | [] => [[]]

/-- Python `s.split('.&[')` returning strings. -/
def splitDotAmp (s : String) : List String :=
  (splitDotAmpAux s.data).map String.mk

/-- Python `s.split('].[')` (non-overlapping, left to right). -/
def splitBrackDotAux : List Char → List (List Char)
  | ']' :: '.' :: '[' :: rest => [] :: splitBrackDotAux rest
  | c :: rest => consHead c (splitBrackDotAux rest)
  | [] => [[]]

/-- Python `s.split('].[')` returning strings. -/
def splitBrackDot (s : String) : List String :=
  (splitBrackDotAux s.data).map String.mk

/-- Python `s.count('.&[')`: number of non-overlapping occurrences.  This
is the member-depth measure used throughout the source
(`DGIS_SCAN_2.py:757,815`). -/
def countDotAmp : List Char → Nat
  | '.' :: '&' :: '[' :: rest => 1 + countDotAmp rest
  | _ :: rest => countDotAmp rest
  | [] => 0

/-- Depth of a member: occurrences of the level separator `.&[` in its
unique name. -/
def depthOf (s : String) : Nat := countDotAmp s.data

/-- Python substring test `pat in s` on character lists. -/
def infixOf (pat : List Char) : List Char → Bool
  | [] => pat.isEmpty
  | c :: rest => pat.isPrefixOf (c :: rest) || infixOf pat rest

/-- Python `pat in s` on strings. -/
def strContains (s pat : String) : Bool := infixOf pat.data s.data

/-- Python `s.replace('[','').replace(']','')`. -/
def removeBrackets (s : String) : String :=
  String.mk (s.data.filter (fun c => c ≠ '[' && c ≠ ']'))

/-- Python `s.strip('[]')`: strip leading and trailing bracket characters. -/
def stripBrackets (s : String) : String :=
  let isBr : Char → Bool := fun c => c = '[' || c = ']'
  String.mk (((s.data.dropWhile isBr).reverse.dropWhile isBr).reverse)

/-- Value of a digit list (most significant first). -/
def digitsVal (l : List Char) : Nat :=
  l.foldl (fun a c => a * 10 + (c.toNat - '0'.toNat)) 0

/-- Python `int(s)`: optional surrounding whitespace, optional sign, one
or more decimal digits (digit-group underscores are not modelled). -/
def pyInt (s : String) : Option Int :=
  match (pyStrip s).data with
  | [] => none
  | c :: rest =>
    let (sgn, digits) : Int × List Char :=
      if c = '-' then (-1, rest) else if c = '+' then (1, rest) else (1, c :: rest)
    if digits ≠ [] && digits.all Char.isDigit then
      some (sgn * (digitsVal digits : Int))
    else none

/-- Python `float`-style parse used to model `pandas.to_numeric`: optional
sign, decimal digits with an optional fractional part (exponent notation
is not modelled).  Returns the parsed rational value. -/
def pyNumeric (s : String) : Option ℚ :=
  match (pyStrip s).data with
  | [] => none
  | c :: rest =>
    let (sgn, body) : ℚ × List Char :=
      if c = '-' then (-1, rest) else if c = '+' then (1, rest) else (1, c :: rest)
    match splitChar '.' body with
    | [ip] =>
      if ip ≠ [] && ip.all Char.isDigit then some (sgn * (digitsVal ip : ℚ)) else none
    | [ip, fp] =>
      if (ip ≠ [] || fp ≠ []) && ip.all Char.isDigit && fp.all Char.isDigit then
        some (sgn * ((digitsVal ip : ℚ) + (digitsVal fp : ℚ) / ((10 : ℚ) ^ fp.length)))
      else none
    | _ => none

/-- Lexicographic comparison of character lists by code point — the order
Python (and pandas) uses when sorting a string column. -/
def clLe : List Char → List Char → Bool
  | [], _ => true
  | _ :: _, [] => false
  | a :: as, b :: bs =>
    if a.toNat < b.toNat then true
    else if b.toNat < a.toNat then false
    else clLe as bs

/-- String comparison by code point. -/
def strLe (a b : String) : Bool := clLe a.data b.data

theorem clLe_total : ∀ a b : List Char, clLe a b = true ∨ clLe b a = true
  | [], _ => Or.inl rfl
  | _ :: _, [] => Or.inr rfl
  | a :: as, b :: bs => by
    by_cases hab : a.toNat < b.toNat
    · exact Or.inl (by simp [clLe, hab])
    · by_cases hba : b.toNat < a.toNat
      · exact Or.inr (by simp [clLe, hba])
      · rcases clLe_total as bs with h | h
        · exact Or.inl (by simp [clLe, hab, hba, h])
        · exact Or.inr (by simp [clLe, hab, hba, h])

theorem clLe_trans : ∀ a b c : List Char,
    clLe a b = true → clLe b c = true → clLe a c = true
  | [], _, _, _, _ => rfl
  | _ :: _, [], _, h, _ => by simp [clLe] at h
  | _ :: _, _ :: _, [], _, h => by simp [clLe] at h
  | a :: as, b :: bs, c :: cs, h₁, h₂ => by
    by_cases hab : a.toNat < b.toNat <;> by_cases hbc : b.toNat < c.toNat
    · simp [clLe, Nat.lt_trans hab hbc]
    · by_cases hcb : c.toNat < b.toNat
      · simp [clLe, hbc, hcb] at h₂
      · have hbc' : b.toNat = c.toNat := Nat.le_antisymm (Nat.le_of_not_lt hcb) (Nat.le_of_not_lt hbc)
        simp [clLe, hbc' ▸ hab]
    · by_cases hba : b.toNat < a.toNat
      · simp [clLe, hab, hba] at h₁
      · have hab' : a.toNat = b.toNat := Nat.le_antisymm (Nat.le_of_not_lt hba) (Nat.le_of_not_lt hab)
        simp [clLe, hab' ▸ hbc]
    · by_cases hba : b.toNat < a.toNat
      · simp [clLe, hab, hba] at h₁
      · by_cases hcb : c.toNat < b.toNat
        · simp [clLe, hbc, hcb] at h₂
        · have hab' : a.toNat = b.toNat := Nat.le_antisymm (Nat.le_of_not_lt hba) (Nat.le_of_not_lt hab)
          have hbc' : b.toNat = c.toNat := Nat.le_antisymm (Nat.le_of_not_lt hcb) (Nat.le_of_not_lt hbc)
          simp only [clLe, hab', hbc', lt_irrefl, if_false, if_neg]
          simp [clLe, hab', hbc'] at h₁ h₂
          exact clLe_trans as bs cs h₁ h₂

/-- Join a list of strings with a separator, Python `sep.join(l)`. -/
def joinSep (sep : String) : List String → String
  | [] => ""
  | [x] => x
  | x :: xs => x ++ sep ++ joinSep sep xs

/-! ### SelectionParser: `parse_ranges` (`src/backend/utils.py:10`) -/

/-- Integers contributed by one comma-separated token of `parse_ranges`:
a malformed token contributes nothing (the source skips it), a range
token `a-b` contributes `a..b` inclusive (empty when `a > b`), a plain
token contributes its integer value. -/
def tokenInts (t : String) : List Int :=
  let part := pyStrip t
  if part.data = [] then []
  else if part.data.contains '-' then
    -- `part.split('-', 1)`: split at the first dash only
    let pre := String.mk (part.data.takeWhile (fun c => c ≠ '-'))
    let post := String.mk ((part.data.dropWhile (fun c => c ≠ '-')).drop 1)
    match pyInt pre, pyInt post with
    | some a, some b => (List.range (b + 1 - a).toNat).map (fun i => a + i)
    | _, _ => []
  else
    match pyInt part with
    | some n => [n]
    | none => []

/-- The set accumulated by `parse_ranges`, then sorted: the source builds
a Python `set` and returns `sorted(list(result))`.  Keeping one copy of
each value (`dedup`) and sorting ascending reproduces that exactly. -/
def sortTokenInts (tokens : List String) : List Int :=
  List.insertionSort (· ≤ ·) ((tokens.flatMap tokenInts).dedup)

/-- `parse_ranges` from `src/backend/utils.py:10`. -/
def parse_ranges (input_str : String) : List Int :=
  if (pyStrip input_str).data = [] then []
  else sortTokenInts (splitComma input_str)

theorem mem_sortTokenInts (tokens : List String) (x : Int) :
    x ∈ sortTokenInts tokens ↔ ∃ t ∈ tokens, x ∈ tokenInts t := by
  unfold sortTokenInts
  rw [(List.perm_insertionSort _ _).mem_iff, List.mem_dedup, List.mem_flatMap]

theorem sortTokenInts_perm_invariant {l₁ l₂ : List String} (h : l₁ ~ l₂) :
    sortTokenInts l₁ = sortTokenInts l₂ := by
  unfold sortTokenInts
  refine List.eq_of_perm_of_sorted ?_ (List.sorted_insertionSort _ _) (List.sorted_insertionSort _ _)
  calc List.insertionSort (· ≤ ·) (l₁.flatMap tokenInts).dedup
      ~ (l₁.flatMap tokenInts).dedup := List.perm_insertionSort _ _
    _ ~ (l₂.flatMap tokenInts).dedup := ((h.flatMap_right tokenInts).dedup)
    _ ~ List.insertionSort (· ≤ ·) (l₂.flatMap tokenInts).dedup :=
        (List.perm_insertionSort _ _).symm

/-- C8: `parse_ranges("1,3,5-8,10")` returns exactly `{1,3,5,6,7,8,10}`
(duplicates removed, and the result depends only on the multiset of
comma-separated tokens, not their order), and `parse_ranges("")` returns
the empty set. -/
theorem parse_ranges_spec :
    parse_ranges "1,3,5-8,10" = [1, 3, 5, 6, 7, 8, 10] ∧
    parse_ranges "" = [] ∧
    ∀ l₁ l₂ : List String, l₁ ~ l₂ → sortTokenInts l₁ = sortTokenInts l₂ := by
  refine ⟨by decide, rfl, fun l₁ l₂ h => sortTokenInts_perm_invariant h⟩

/-- Witness for C8: the token-order-independence hypothesis discharged on
a concrete permutation of the tokens of `"1,3,5-8,10"`. -/
theorem parse_ranges_spec_witness :
    sortTokenInts ["1", "3", "5-8", "10"] = sortTokenInts ["10", "5-8", "3", "1"] :=
  parse_ranges_spec.2.2 _ _ (by decide)

/-! ### Member catalog snapshot

One row of the member CSV (`download_members_only`,
`DGIS_SCAN_2.py:464`).  `DIMENSION`, `JERARQUIA`, `MIEMBRO_UNIQUE_NAME`
and `MIEMBRO_CAPTION` are accessed unconditionally by the resolver, so
they are plain fields; `NIVEL_NOMBRE` may additionally be missing on a
given row (`NaN`), hence the `Option`. -/
structure MemberRow where
  dimension : String
  jerarquia : String
  uniqueName : String
  caption : String
  nivelNombre : Option String
  miembroOrdinal : Int
  ordinal : Int
  miembroKey : String
deriving DecidableEq

/-- A loaded member data frame: the rows plus, for each optional column,
whether the column is present in this snapshot (the source's
`'X' in df.columns` checks). -/
structure Snapshot where
  rows : List MemberRow
  hasNivelNombre : Bool
  hasMiembroOrdinal : Bool
  hasOrdinal : Bool
  hasMiembroKey : Bool
  hasMiembroCaption : Bool
deriving DecidableEq

/-! ### LevelInferenceEngine: `extract_levels_from_unique_names`
(`DGIS_SCAN_2.py:785`) -/

/-- An inferred level: `{'level_name': …, 'level_depth': …}`. -/
structure LevelInfo where
  levelName : String
  levelDepth : Nat
deriving DecidableEq

/-- Members of one `(dimension, hierarchy)` pair, root `"All"` excluded
(`DGIS_SCAN_2.py:795`). -/
def hierMembers (snap : Snapshot) (dimension hierarchy : String) : List MemberRow :=
  snap.rows.filter fun r =>
    r.dimension = dimension && r.jerarquia = hierarchy && r.caption ≠ "All"

/-- Ordering used by `nlargest(50, 'len')`: descending by unique-name
length, earlier rows first on ties. -/
def lenDesc (a b : MemberRow) : Prop :=
  b.uniqueName.length ≤ a.uniqueName.length

instance : DecidableRel lenDesc := fun a b => Nat.decLe _ _

instance : IsTotal MemberRow lenDesc := ⟨fun a b => Nat.le_total b.uniqueName.length a.uniqueName.length⟩

instance : IsTrans MemberRow lenDesc := ⟨fun _ _ _ h₁ h₂ => Nat.le_trans h₂ h₁⟩

/-- The bounded sample of `extract_levels_from_unique_names`: the 50
longest unique names of the hierarchy (`DGIS_SCAN_2.py:806-807`). -/
def sampleNames (snap : Snapshot) (dimension hierarchy : String) : List String :=
  ((List.insertionSort lenDesc (hierMembers snap dimension hierarchy)).take 50).map
    (fun r => r.uniqueName)

/-- `max_depth` accumulated over the sample (`DGIS_SCAN_2.py:812-817`). -/
def maxDepthOf (snap : Snapshot) (dimension hierarchy : String) : Nat :=
  (sampleNames snap dimension hierarchy).foldl (fun m u => max m (depthOf u)) 0

/-- The depth-1 name recovered from the unique-name structure, if any:
`levels_found[1]` after the sample loop (`DGIS_SCAN_2.py:819-831`); a
later assignment overwrites an earlier one. -/
def level1Name (snap : Snapshot) (dimension hierarchy : String) : Option String :=
  (sampleNames snap dimension hierarchy).foldl
    (fun acc u =>
      let firstPart := (splitDotAmp u).headD u
      if strContains firstPart "].[" then
        let lastSegment := removeBrackets ((splitBrackDot firstPart).getLastD firstPart)
        let hierClean := removeBrackets ((splitDot hierarchy).getLastD hierarchy)
        if lastSegment ≠ hierClean then some lastSegment else acc
      else acc)
    none

/-- `extract_levels_from_unique_names` (`DGIS_SCAN_2.py:785-847`): one
level per depth `1..max_depth`; depth 1 keeps the recovered name when one
exists, every other depth gets the generic label `"Nivel {d}"`. -/
def extract_levels (snap : Snapshot) (dimension hierarchy : String) : List LevelInfo :=
  if hierMembers snap dimension hierarchy = [] then []
  else
    (List.range (maxDepthOf snap dimension hierarchy)).map fun i =>
      let d := i + 1
      ⟨if d = 1 then (level1Name snap dimension hierarchy).getD "Nivel 1"
        else "Nivel " ++ toString d, d⟩

/-! ### MemberFilterResolver: `get_dimension_members`
(`DGIS_SCAN_2.py:731`) -/

/-- The row filter of `get_dimension_members` (`DGIS_SCAN_2.py:734-762`):
dimension and hierarchy match; level match by `NIVEL_NOMBRE` when the
column exists, else by unique-name depth when the requested level name
resolves through `extract_levels_from_unique_names`; root `"All"`
excluded when the caption column exists. -/
def memberPred (snap : Snapshot) (dimension hierarchy level : String) : MemberRow → Bool :=
  let levelPred : MemberRow → Bool :=
    if snap.hasNivelNombre then fun r => r.nivelNombre = some level
    else
      let extracted := extract_levels snap dimension hierarchy
      if extracted ≠ [] then
        match extracted.find? (fun li => li.levelName = level) with
        | some li => fun r => depthOf r.uniqueName = li.levelDepth
        | none => fun _ => true
      else fun _ => true
  fun r =>
    r.dimension = dimension && r.jerarquia = hierarchy && levelPred r &&
      (!snap.hasMiembroCaption || r.caption ≠ "All")

/-- The filtered candidate rows of `get_dimension_members`. -/
def filteredMembers (snap : Snapshot) (dimension hierarchy level : String) : List MemberRow :=
  snap.rows.filter (memberPred snap dimension hierarchy level)

/-- Sort key when the `MIEMBRO_ORDINAL` column exists. -/
def ordLe (a b : MemberRow) : Prop := a.miembroOrdinal ≤ b.miembroOrdinal

instance : DecidableRel ordLe := fun a b => Int.decLe _ _

instance : IsTotal MemberRow ordLe := ⟨fun a b => Int.le_total _ _⟩

instance : IsTrans MemberRow ordLe := ⟨fun _ _ _ => Int.le_trans⟩

/-- Sort key when only the generic `ORDINAL` column exists. -/
def genOrdLe (a b : MemberRow) : Prop := a.ordinal ≤ b.ordinal

instance : DecidableRel genOrdLe := fun a b => Int.decLe _ _

instance : IsTotal MemberRow genOrdLe := ⟨fun a b => Int.le_total _ _⟩

instance : IsTrans MemberRow genOrdLe := ⟨fun _ _ _ => Int.le_trans⟩

/-- Numeric value of a member key (`pd.to_numeric`), defaulting to 0;
the default is only reachable when some key fails to parse, in which
case the source never sorts by this value. -/
def keyNumOf (r : MemberRow) : ℚ := (pyNumeric r.miembroKey).getD 0

/-- Sort key for the numeric-key branch. -/
def keyNumLe (a b : MemberRow) : Prop := keyNumOf a ≤ keyNumOf b

instance : DecidableRel keyNumLe := fun a b => inferInstanceAs (Decidable (_ ≤ _))

instance : IsTotal MemberRow keyNumLe := ⟨fun a b => le_total _ _⟩

instance : IsTrans MemberRow keyNumLe := ⟨fun _ _ _ => le_trans⟩

/-- Sort key for the string-key branch. -/
def keyStrLe (a b : MemberRow) : Prop := strLe a.miembroKey b.miembroKey = true

instance : DecidableRel keyStrLe := fun a b => instDecidableEqBool _ _

instance : IsTotal MemberRow keyStrLe := ⟨fun a b => clLe_total _ _⟩

instance : IsTrans MemberRow keyStrLe := ⟨fun _ _ _ h₁ h₂ => clLe_trans _ _ _ h₁ h₂⟩

/-- Sort key for the caption fallback. -/
def captionLe (a b : MemberRow) : Prop := strLe a.caption b.caption = true

instance : DecidableRel captionLe := fun a b => instDecidableEqBool _ _

instance : IsTotal MemberRow captionLe := ⟨fun a b => clLe_total _ _⟩

instance : IsTrans MemberRow captionLe := ⟨fun _ _ _ h₁ h₂ => clLe_trans _ _ _ h₁ h₂⟩

/-- Does every candidate key parse as a number?  Models the fact that
`pd.to_numeric` on the filtered key column raises as soon as one value
fails to parse (`DGIS_SCAN_2.py:773-778`). -/
def allKeysNumeric (ms : List MemberRow) : Bool :=
  ms.all fun r => (pyNumeric r.miembroKey).isSome

/-- The ordering chain of `get_dimension_members`
(`DGIS_SCAN_2.py:766-781`): `MIEMBRO_ORDINAL` column if present, else
`ORDINAL`, else `MIEMBRO_KEY` (numerically when every filtered key
parses, else as strings), else `MIEMBRO_CAPTION`. -/
def sortedMembers (snap : Snapshot) (dimension hierarchy level : String) : List MemberRow :=
  let ms := filteredMembers snap dimension hierarchy level
  if snap.hasMiembroOrdinal then List.insertionSort ordLe ms
  else if snap.hasOrdinal then List.insertionSort genOrdLe ms
  else if snap.hasMiembroKey then
    if allKeysNumeric ms then List.insertionSort keyNumLe ms
    else List.insertionSort keyStrLe ms
  else List.insertionSort captionLe ms

/-- `get_dimension_members` (`DGIS_SCAN_2.py:731-783`): the sorted
candidates projected to `(MIEMBRO_CAPTION, MIEMBRO_UNIQUE_NAME)`. -/
def get_dimension_members (snap : Snapshot) (dimension hierarchy level : String) :
    List (String × String) :=
  (sortedMembers snap dimension hierarchy level).map fun r => (r.caption, r.uniqueName)

/-! ### CardinalityEstimator: `_estimate_and_warn_cardinality`
(`DGIS_SCAN_2.py:897`) -/

/-- One chosen grouping axis, as passed to the estimator. -/
structure DimSelection where
  dimension : String
  hierarchy : String
  level : String
deriving DecidableEq

/-- Per-dimension member count of the estimator
(`DGIS_SCAN_2.py:909-922`): rows matching dimension, hierarchy and level
name when the `NIVEL_NOMBRE` column exists, else every row of the
hierarchy. -/
def countForDim (snap : Snapshot) (d : DimSelection) : Nat :=
  if snap.hasNivelNombre then
    (snap.rows.filter fun r =>
      r.dimension = d.dimension && r.jerarquia = d.hierarchy &&
        r.nivelNombre = some d.level).length
  else
    (snap.rows.filter fun r =>
      r.dimension = d.dimension && r.jerarquia = d.hierarchy).length

/-- `_estimate_and_warn_cardinality` (`DGIS_SCAN_2.py:897-932`): `0` for
an empty selection list, else the product of the per-dimension counts
floored at 1.  (The advisory printed above 100000 rows is terminal
output and does not affect the returned value.) -/
def estimate_cardinality (snap : Snapshot) (dims : List DimSelection) : Nat :=
  if dims = [] then 0
  else dims.foldl (fun acc d => acc * max (countForDim snap d) 1) 1

/-! ### MdxQuerySynthesizer, request path
(`olap_service.py:346-453`, `_build_and_execute_query_sync` and
`_build_level_mdx`).  Only the query-text construction is embedded: the
cube-name lookup against the live server is external I/O whose fallback
is `[catalog]` (`olap_service.py:412-421`), and execution of the
finished statement is out of scope. -/

/-- One `rows` entry of a query request:
`{'dimension', 'hierarchy', 'level', 'depth'?}`. -/
structure RowConfig where
  dimension : String
  hierarchy : String
  level : String
  depth : Option Nat
deriving DecidableEq

/-- One `filters` entry of a query request. -/
structure FilterConfig where
  dimension : String
  hierarchy : String
  members : List String
deriving DecidableEq

/-- A query request as accepted by `_build_and_execute_query_sync`. -/
structure QueryRequest where
  catalog : String
  measures : List String
  «variables» : List String
  rows : List RowConfig
  filters : List FilterConfig
deriving DecidableEq

/-- Set literal `{ a, b, … }`.  The source's one-element branch
(`olap_service.py:372-376`) produces exactly the same text as the
general join, so both branches share this definition. -/
def setLiteral (items : List String) : String :=
  "\x7b " ++ joinSep ", " items ++ " \x7d"

/-- `CROSSJOIN(a, b)`. -/
def crossjoin (a b : String) : String :=
  "CROSSJOIN(" ++ a ++ ", " ++ b ++ ")"

/-- The final f-string of `_build_and_execute_query_sync`
(`olap_service.py:424-427`); nothing follows the cube name. -/
def assembleMdx (columnsClause rowsClause cubeName : String) : String :=
  "SELECT \n    " ++ columnsClause ++ " ON COLUMNS,\n    NON EMPTY " ++ rowsClause ++
    " ON ROWS\nFROM " ++ cubeName

/-- `_build_level_mdx` (`olap_service.py:432-453`). -/
def build_level_mdx (row : RowConfig) : String :=
  if "Nivel ".data.isPrefixOf row.level.data then
    row.hierarchy ++ ".Levels(" ++ toString (row.depth.getD 1) ++ ").MEMBERS"
  else if strContains row.level "All" || strContains row.level "UNKNOWNMEMBER" then
    if row.hierarchy.data.contains '.' then
      row.hierarchy ++ ".[" ++
        stripBrackets ((splitDot row.hierarchy).getLastD row.hierarchy) ++ "].MEMBERS"
    else row.hierarchy ++ ".MEMBERS"
  else row.hierarchy ++ ".[" ++ row.level ++ "].MEMBERS"

/-- Folding the eligible filters into the ROWS clause
(`olap_service.py:394-408`): a filter is crossjoined only when it has
members and its hierarchy is not already among the row selections. -/
def foldFilters (rows : List RowConfig) (filters : List FilterConfig) (acc : String) : String :=
  filters.foldl
    (fun acc filt =>
      if filt.members ≠ [] && !(rows.any fun row => row.hierarchy = filt.hierarchy) then
        crossjoin (setLiteral filt.members) acc
      else acc)
    acc

/-- `items_for_columns` (`olap_service.py:367`): the variables when any
were supplied, else the measures. -/
def itemsOf (req : QueryRequest) : List String :=
  if req.«variables» ≠ [] then req.«variables» else req.measures

/-- The pure query-construction core of `_build_and_execute_query_sync`
(`olap_service.py:346-427`): an `Except.error` models both the raised
`ValueError` and the early `{'error': 'No rows specified'}` return —
in either case no MDX text is produced. -/
def buildQuery (req : QueryRequest) : Except String String :=
  if itemsOf req = [] then Except.error "Debe especificar al menos una medida o variable"
  else
    match req.rows.map build_level_mdx with
    | [] => Except.error "No rows specified"
    | p :: rest =>
      let rowsBase := rest.foldl (fun acc part => crossjoin part acc) p
      let rowsClause := foldFilters req.rows req.filters rowsBase
      Except.ok (assembleMdx (setLiteral (itemsOf req)) rowsClause ("[" ++ req.catalog ++ "]"))

/-! ### MdxQuerySynthesizer, interactive path
(`DGIS_SCAN_2.py:934-1487`, `interactive_hierarchical_builder`).  The
MDX generation at the end of the builder (`DGIS_SCAN_2.py:1409-1451`)
is a pure function of the accumulated selections; the selection loop's
guard for adding a row dimension (`DGIS_SCAN_2.py:1253-1274`) is
embedded as `addRowDimension`. -/

/-- One accumulated `row_dimensions` entry (`DGIS_SCAN_2.py:1335-1342`). -/
structure RowDimension where
  mdx : String
  dimension : String
  hierarchy : String
  level : String
  dimProperties : List String
deriving DecidableEq

/-- One accumulated `where_filters` entry (`DGIS_SCAN_2.py:1391-1394`):
the member-set literal is already rendered. -/
structure WhereFilter where
  mdx : String
deriving DecidableEq

/-- The guard run when the user adds a row dimension
(`DGIS_SCAN_2.py:1253-1274`): at most 3 row dimensions, and a
`(dimension, hierarchy)` pair already in use is rejected with a
validation warning — the list is left unchanged (`none`). -/
def addRowDimension (rowDims : List RowDimension) (sel : RowDimension) :
    Option (List RowDimension) :=
  if 3 ≤ rowDims.length then none
  else
    let path := sel.dimension ++ "." ++ sel.hierarchy
    if rowDims.any (fun d => d.dimension ++ "." ++ d.hierarchy = path) then none
    else some (rowDims ++ [sel])

/-- The MDX assembly of `interactive_hierarchical_builder`
(`DGIS_SCAN_2.py:1409-1451`): measures on COLUMNS; the variable set as
the base of the ROWS axis, wrapped by one CROSSJOIN per row dimension
and then one per filter; `DIMENSION PROPERTIES` only when some row
dimension carries properties; `where_clause` is the empty string —
nothing follows the cube name. -/
def generateMdx (measures «variables» : List String) (rowDims : List RowDimension)
    (whereFilters : List WhereFilter) (cubeName : String) : String :=
  let columnsClause := setLiteral measures
  let variablesSet := setLiteral «variables»
  let rowsBase := rowDims.foldl (fun acc dim => crossjoin dim.mdx acc) variablesSet
  let allDimProps := rowDims.foldl (fun acc dim => acc ++ dim.dimProperties) []
  let dimPropsClause :=
    if allDimProps ≠ [] then "\n    DIMENSION PROPERTIES " ++ joinSep ", " allDimProps
    else ""
  let rowsClause := whereFilters.foldl (fun acc wf => crossjoin wf.mdx acc) rowsBase
  "SELECT \n    " ++ columnsClause ++ " ON COLUMNS,\n    NON EMPTY " ++ rowsClause ++
    " ON ROWS" ++ dimPropsClause ++ "\nFROM " ++ cubeName

/-! ### Substring infrastructure for the clause-shape theorems -/

/-- `pat` occurs as a contiguous substring of `s`. -/
def strIn (pat s : String) : Prop := pat.data <:+: s.data

instance (pat s : String) : Decidable (strIn pat s) :=
  inferInstanceAs (Decidable (_ <:+: _))

theorem data_append (a b : String) : (a ++ b).data = a.data ++ b.data := rfl

theorem strAppend_assoc (a b c : String) : a ++ b ++ c = a ++ (b ++ c) :=
  congrArg String.mk (List.append_assoc a.data b.data c.data)

theorem strIn_of_append (pat a b : String) (h : strIn pat a) : strIn pat (a ++ b) := by
  unfold strIn at *
  rw [data_append]
  exact h.trans ⟨[], b.data, by simp⟩

theorem strIn_of_append_right (pat a b : String) (h : strIn pat b) : strIn pat (a ++ b) := by
  unfold strIn at *
  rw [data_append]
  exact h.trans ⟨a.data, [], by simp⟩

theorem strIn_self (pat : String) : strIn pat pat := List.infix_rfl

/-- A substring of the right operand of `CROSSJOIN` survives the wrap. -/
theorem strIn_crossjoin_right (pat a acc : String) (h : strIn pat acc) :
    strIn pat (crossjoin a acc) := by
  unfold crossjoin
  exact strIn_of_append _ _ _ (strIn_of_append_right _ _ _ h)

/-- The `CROSSJOIN(` opener together with its first operand and the
separating comma is a substring of the wrapped clause. -/
theorem strIn_crossjoin_head (a acc : String) :
    strIn ("CROSSJOIN(" ++ a ++ ", ") (crossjoin a acc) := by
  unfold crossjoin
  rw [strAppend_assoc, strAppend_assoc]
  rw [← strAppend_assoc "CROSSJOIN(" a ", "]
  exact strIn_of_append _ _ _ (strIn_self _)

/-- Folding further filters never erases an existing substring of the
ROWS clause. -/
theorem strIn_foldFilters (rows : List RowConfig) (pat : String) :
    ∀ (filters : List FilterConfig) (acc : String), strIn pat acc →
      strIn pat (foldFilters rows filters acc)
  | [], _, h => h
  | f :: t, acc, h => by
    unfold foldFilters
    rw [List.foldl_cons]
    show strIn pat (foldFilters rows t _)
    by_cases hc : (f.members ≠ [] && !(rows.any fun row => row.hierarchy = f.hierarchy)) = true
    · simp only [hc, if_true]
      exact strIn_foldFilters rows pat t _ (strIn_crossjoin_right _ _ _ h)
    · simp only [hc, if_false]
      exact strIn_foldFilters rows pat t _ h

/-- An eligible filter's member-set literal is crossjoined into the
folded ROWS clause. -/
theorem strIn_foldFilters_of_mem (rows : List RowConfig) :
    ∀ (filters : List FilterConfig) (acc : String) (f : FilterConfig), f ∈ filters →
      f.members ≠ [] → (rows.any fun row => row.hierarchy = f.hierarchy) = false →
      strIn ("CROSSJOIN(" ++ setLiteral f.members ++ ", ") (foldFilters rows filters acc)
  | [], _, _, hf, _, _ => absurd hf (List.not_mem_nil _)
  | g :: t, acc, f, hf, hm, hh => by
    unfold foldFilters
    rw [List.foldl_cons]
    show strIn _ (foldFilters rows t _)
    rcases List.mem_cons.mp hf with rfl | hft
    · have hc : (f.members ≠ [] && !(rows.any fun row => row.hierarchy = f.hierarchy)) = true := by
        simp [hm, hh]
      simp only [hc, if_true]
      exact strIn_foldFilters rows _ t _ (strIn_crossjoin_head _ _)
    · by_cases hc : (g.members ≠ [] && !(rows.any fun row => row.hierarchy = g.hierarchy)) = true
      · simp only [hc, if_true]
        exact strIn_foldFilters_of_mem rows t _ f hft hm hh
      · simp only [hc, if_false]
        exact strIn_foldFilters_of_mem rows t _ f hft hm hh

/-- Same preservation fact for the interactive builder's filter fold. -/
theorem strIn_foldWhere (pat : String) :
    ∀ (wfs : List WhereFilter) (acc : String), strIn pat acc →
      strIn pat (wfs.foldl (fun acc wf => crossjoin wf.mdx acc) acc)
  | [], _, h => h
  | _ :: t, _, h => strIn_foldWhere pat t _ (strIn_crossjoin_right _ _ _ h)

/-- Every accumulated interactive filter is crossjoined into the ROWS
clause. -/
theorem strIn_foldWhere_of_mem :
    ∀ (wfs : List WhereFilter) (acc : String) (wf : WhereFilter), wf ∈ wfs →
      strIn ("CROSSJOIN(" ++ wf.mdx ++ ", ")
        (wfs.foldl (fun acc wf => crossjoin wf.mdx acc) acc)
  | [], _, _, hwf => absurd hwf (List.not_mem_nil _)
  | g :: t, acc, wf, hwf => by
    rw [List.foldl_cons]
    rcases List.mem_cons.mp hwf with rfl | hwt
    · exact strIn_foldWhere _ t _ (strIn_crossjoin_head _ _)
    · exact strIn_foldWhere_of_mem t _ wf hwt

/-! ### Concrete snapshots and requests used by the claim theorems -/

/-- A legacy-schema member row (no optional columns populated). -/
def legacyRow (u c : String) : MemberRow := ⟨"D", "H", u, c, none, 0, 0, ""⟩

/-- The three-member legacy hierarchy of spec §8: unique names `"A"`,
`"A.&[1]"`, `"A.&[1].&[2]"`. -/
def legacySnap : Snapshot :=
  ⟨[legacyRow "A" "a0", legacyRow "A.&[1]" "a1", legacyRow "A.&[1].&[2]" "a2"],
    false, false, false, false, false⟩

/-- An empty snapshot without optional columns. -/
def emptySnap : Snapshot := ⟨[], false, false, false, false, false⟩

/-! ### Claim theorems -/

/-- C3, counterexample: with one measure `[Measures].[M]`, one variable
`[V].[Total]`, no row dimensions and no filters, the interactive
synthesizer does NOT produce the single-line string stated by the claim:
the emitted text separates the clauses with newline-plus-indent and puts
spaces inside the set braces. -/
theorem single_variable_query_counterexample :
    generateMdx ["[Measures].[M]"] ["[V].[Total]"] [] [] "[Cube]" ≠
      "SELECT \x7b[Measures].[M]\x7d ON COLUMNS, NON EMPTY \x7b[V].[Total]\x7d ON ROWS FROM [Cube]" := by
  decide

/-- C3, amended: the same synthesis produces exactly the template with
newline/indent clause separators and spaced braces — same clauses in the
same order — and the output contains no CROSSJOIN wrapper. -/
theorem single_variable_query_amended :
    generateMdx ["[Measures].[M]"] ["[V].[Total]"] [] [] "[Cube]" =
      "SELECT \n    \x7b [Measures].[M] \x7d ON COLUMNS,\n    NON EMPTY \x7b [V].[Total] \x7d ON ROWS\nFROM [Cube]" ∧
    ¬ strIn "CROSSJOIN" (generateMdx ["[Measures].[M]"] ["[V].[Total]"] [] [] "[Cube]") := by
  constructor
  · decide
  · set_option maxRecDepth 4000 in decide

/-- C5: in the inferred (legacy) path, the returned level list carries
exactly the depths `1..max_depth` in ascending order, where the depth of
a member counts level-separator occurrences in its unique name; and on
the concrete hierarchy with unique names `"A"`, `"A.&[1]"`,
`"A.&[1].&[2]"` the inferred depths are 0, 1 and 2 and exactly 2
non-root levels are produced. -/
theorem extract_levels_depths_spec (snap : Snapshot) (dimension hierarchy : String) :
    ((extract_levels snap dimension hierarchy).map LevelInfo.levelDepth) =
      List.range' 1 (maxDepthOf snap dimension hierarchy) ∧
    List.Sorted (· < ·) ((extract_levels snap dimension hierarchy).map LevelInfo.levelDepth) ∧
    depthOf "A" = 0 ∧ depthOf "A.&[1]" = 1 ∧ depthOf "A.&[1].&[2]" = 2 ∧
    (extract_levels legacySnap "D" "H").length = 2 := by
  have hmap : ((extract_levels snap dimension hierarchy).map LevelInfo.levelDepth) =
      List.range' 1 (maxDepthOf snap dimension hierarchy) := by
    unfold extract_levels
    split
    · next hempty =>
      have : maxDepthOf snap dimension hierarchy = 0 := by
        unfold maxDepthOf sampleNames
        rw [hempty]
        rfl
      simp [this]
    · rw [List.map_map, List.range'_eq_map_range]
      exact List.map_congr_left fun i _ => Nat.add_comm i 1
  refine ⟨hmap, ?_, by decide, by decide, by decide, by decide⟩
  rw [hmap]
  exact List.pairwise_lt_range' 1 (maxDepthOf snap dimension hierarchy)

/-- C6, counterexample: in the legacy hierarchy `"A"`, `"A.&[1]"`,
`"A.&[1].&[2]"` the depth-2 level (which has no recoverable explicit
name) is labelled `"Nivel 2"`, not `"Level 2"` as the claim states; and
the produced level records carry no `explicit` flag at all (their only
fields are `level_name` and `level_depth`). -/
theorem generic_label_counterexample :
    (extract_levels legacySnap "D" "H").map LevelInfo.levelName = ["Nivel 1", "Nivel 2"] ∧
    "Nivel 2" ≠ "Level 2" := by
  decide

/-- C6, amended: every inferred level of depth greater than 1 is given
the generic Spanish label `"Nivel {depth}"` (no explicit name is ever
recovered for a depth above 1; the level records have no `explicit`
field). -/
theorem generic_label_amended (snap : Snapshot) (dimension hierarchy : String)
    (lv : LevelInfo) (hmem : lv ∈ extract_levels snap dimension hierarchy)
    (hd : 1 < lv.levelDepth) :
    lv.levelName = "Nivel " ++ toString lv.levelDepth := by
  unfold extract_levels at hmem
  split at hmem
  · exact absurd hmem (List.not_mem_nil _)
  · obtain ⟨i, _, rfl⟩ := List.mem_map.mp hmem
    simp only at hd ⊢
    rw [if_neg (by omega)]

/-- Witness for C6: the amended claim evaluated on the depth-2 level of
the concrete legacy hierarchy. -/
theorem generic_label_amended_witness :
    LevelInfo.levelName ⟨"Nivel 2", 2⟩ = "Nivel " ++ toString (LevelInfo.levelDepth ⟨"Nivel 2", 2⟩) :=
  generic_label_amended legacySnap "D" "H" ⟨"Nivel 2", 2⟩ (by decide) (by decide)

/-- Multiplicative fold equals initial value times product of the mapped
factors. -/
theorem foldl_mul_map {α : Type} (g : α → Nat) :
    ∀ (l : List α) (a : Nat), l.foldl (fun acc d => acc * g d) a = a * (l.map g).prod
  | [], a => by simp
  | x :: t, a => by
    rw [List.foldl_cons, foldl_mul_map g t (a * g x)]
    simp [Nat.mul_assoc]

/-- C7, counterexample: for the empty selection list the estimator
returns 0, not the (empty) product of per-dimension counts, which is 1 —
so the estimate is not the stated product for every list. -/
theorem cardinality_counterexample :
    estimate_cardinality emptySnap [] ≠
      (([] : List DimSelection).map fun d => max (countForDim emptySnap d) 1).prod := by
  decide

/-- C7, amended: for every NON-EMPTY selection list the estimate equals
the product over the selections of the per-dimension count floored at 1
(the count per the source's rule: level-name match when the level column
exists, else all members of the hierarchy); the empty list yields 0; and
the estimate is monotonic — appending a selection never decreases it. -/
theorem cardinality_amended (snap : Snapshot) (dims : List DimSelection) :
    (dims ≠ [] → estimate_cardinality snap dims =
      (dims.map fun d => max (countForDim snap d) 1).prod) ∧
    estimate_cardinality snap [] = 0 ∧
    ∀ d, estimate_cardinality snap dims ≤ estimate_cardinality snap (dims ++ [d]) := by
  have heval : ∀ l : List DimSelection, l ≠ [] →
      estimate_cardinality snap l = (l.map fun d => max (countForDim snap d) 1).prod := by
    intro l hl
    unfold estimate_cardinality
    rw [if_neg hl, foldl_mul_map, Nat.one_mul]
  refine ⟨heval dims, rfl, fun d => ?_⟩
  by_cases hd : dims = []
  · subst hd
    exact Nat.zero_le _
  · rw [heval dims hd, heval (dims ++ [d]) (by simp), List.map_append, List.prod_append]
    have hpos : 0 < ([d].map fun d => max (countForDim snap d) 1).prod := by
      simp
    exact Nat.le_mul_of_pos_right _ hpos

/-- Witness for C7: the amended product formula and the monotonicity step
evaluated on a concrete one-element selection list. -/
theorem cardinality_amended_witness :
    estimate_cardinality emptySnap [⟨"D", "H", "L"⟩] =
      (([⟨"D", "H", "L"⟩] : List DimSelection).map fun d => max (countForDim emptySnap d) 1).prod ∧
    estimate_cardinality emptySnap [⟨"D", "H", "L"⟩] ≤
      estimate_cardinality emptySnap ([⟨"D", "H", "L"⟩] ++ [⟨"D", "H", "L2"⟩]) :=
  ⟨(cardinality_amended emptySnap [⟨"D", "H", "L"⟩]).1 (by decide),
    (cardinality_amended emptySnap [⟨"D", "H", "L"⟩]).2.2 ⟨"D", "H", "L2"⟩⟩

/-- Successful synthesis with the request path, in closed form. -/
theorem buildQuery_eq_ok (req : QueryRequest) (p : String) (rest : List String)
    (hitems : itemsOf req ≠ []) (hmap : req.rows.map build_level_mdx = p :: rest) :
    buildQuery req = Except.ok (assembleMdx (setLiteral (itemsOf req))
      (foldFilters req.rows req.filters (rest.foldl (fun acc part => crossjoin part acc) p))
      ("[" ++ req.catalog ++ "]")) := by
  unfold buildQuery
  rw [if_neg hitems, hmap]

/-- The request path synthesizes some MDX text whenever the column items
and the row selections are non-empty. -/
theorem buildQuery_ok_total (req : QueryRequest) (hitems : itemsOf req ≠ [])
    (hrows : req.rows ≠ []) : ∃ s, buildQuery req = Except.ok s := by
  cases hmap : req.rows.map build_level_mdx with
  | nil => exact absurd (List.map_eq_nil_iff.mp hmap) hrows
  | cons p rest => exact ⟨_, buildQuery_eq_ok req p rest hitems hmap⟩

theorem itemsOf_ne (req : QueryRequest)
    (h : req.«variables» ≠ [] ∨ req.measures ≠ []) : itemsOf req ≠ [] := by
  unfold itemsOf
  by_cases hv : req.«variables» = []
  · rcases h with hv' | hm
    · exact absurd hv hv'
    · simpa [hv] using hm
  · simp [hv]

/-- Every `.ok` result of the request path is an expression returned by
`assembleMdx`. -/
theorem buildQuery_ok_inv (req : QueryRequest) (s : String)
    (hok : buildQuery req = Except.ok s) :
    ∃ p rest, req.rows.map build_level_mdx = p :: rest ∧ itemsOf req ≠ [] ∧
      s = assembleMdx (setLiteral (itemsOf req))
        (foldFilters req.rows req.filters (rest.foldl (fun acc part => crossjoin part acc) p))
        ("[" ++ req.catalog ++ "]") := by
  by_cases hitems : itemsOf req = []
  · rw [buildQuery, if_pos hitems] at hok
    exact absurd hok (by simp)
  · cases hmap : req.rows.map build_level_mdx with
    | nil =>
      rw [buildQuery, if_neg hitems, hmap] at hok
      exact absurd hok (by simp)
    | cons p rest =>
      rw [buildQuery_eq_ok req p rest hitems hmap] at hok
      exact ⟨p, rest, rfl, hitems, (Except.ok.inj hok).symm⟩

/-- C1, counterexample: the request with the same `(dimension,
hierarchy)` pair `("D", "H")` appearing twice among the row selections
is synthesized without any error — a complete MDX string crossjoining
the hierarchy with itself is produced, so no ValidationError is raised
and MDX text IS returned. -/
theorem duplicate_hierarchy_counterexample :
    (⟨"Cube", ["[Measures].[X]"], [], [⟨"D", "H", "L", none⟩, ⟨"D", "H", "L", none⟩],
        []⟩ : QueryRequest).rows.map (fun r => (r.dimension, r.hierarchy)) =
      [("D", "H"), ("D", "H")] ∧
    buildQuery ⟨"Cube", ["[Measures].[X]"], [], [⟨"D", "H", "L", none⟩, ⟨"D", "H", "L", none⟩], []⟩ =
      Except.ok "SELECT \n    \x7b [Measures].[X] \x7d ON COLUMNS,\n    NON EMPTY CROSSJOIN(H.[L].MEMBERS, H.[L].MEMBERS) ON ROWS\nFROM [Cube]" := by
  constructor
  · decide
  · set_option maxRecDepth 8000 in decide

/-- C1, amended: only the interactive builder guards against a duplicate
`(dimension, hierarchy)` pair — adding a row dimension whose pair is
already in use is rejected and the accumulated row set is left
unchanged (`none`); the request-path synthesizer performs no such check
and returns MDX text for any request with a non-empty column selection
and non-empty rows, duplicated pairs included. -/
theorem duplicate_hierarchy_amended :
    (∀ (dims : List RowDimension) (sel : RowDimension),
      (∃ d ∈ dims, d.dimension ++ "." ++ d.hierarchy = sel.dimension ++ "." ++ sel.hierarchy) →
      addRowDimension dims sel = none) ∧
    (∀ req : QueryRequest, req.«variables» ≠ [] ∨ req.measures ≠ [] → req.rows ≠ [] →
      ∃ s, buildQuery req = Except.ok s) := by
  constructor
  · rintro dims sel ⟨d, hd, he⟩
    unfold addRowDimension
    by_cases h3 : 3 ≤ dims.length
    · rw [if_pos h3]
    · rw [if_neg h3]
      have hany : (dims.any fun d => d.dimension ++ "." ++ d.hierarchy =
          sel.dimension ++ "." ++ sel.hierarchy) = true :=
        List.any_eq_true.mpr ⟨d, hd, by simp [he]⟩
      simp only [hany, if_true]
  · intro req hcols hrows
    exact buildQuery_ok_total req (itemsOf_ne req hcols) hrows

/-- Witness for C1: the amended guard and the unguarded request path
evaluated on concrete inputs. -/
theorem duplicate_hierarchy_amended_witness :
    addRowDimension [⟨"H.[L].MEMBERS", "D", "H", "L", []⟩] ⟨"X", "D", "H", "L2", []⟩ = none ∧
    ∃ s, buildQuery ⟨"Cube", ["[Measures].[X]"], [],
      [⟨"D", "H", "L", none⟩, ⟨"D", "H", "L", none⟩], []⟩ = Except.ok s :=
  ⟨duplicate_hierarchy_amended.1 _ _ ⟨⟨"H.[L].MEMBERS", "D", "H", "L", []⟩, by decide, by decide⟩,
    duplicate_hierarchy_amended.2 _ (Or.inr (by decide)) (by decide)⟩

/-- C10: whenever the request supplies a non-empty variables list the
measures are ignored entirely (the result is unchanged under replacing
them by anything); when the variables list is empty the measures are
used and, with non-empty rows, synthesis succeeds; when both lists are
empty the builder fails with the validation error before any MDX is
produced. -/
theorem columns_priority (req : QueryRequest) (ms : List String) :
    (req.«variables» ≠ [] → buildQuery req = buildQuery {req with measures := ms}) ∧
    (req.«variables» = [] → req.measures = [] →
      buildQuery req = Except.error "Debe especificar al menos una medida o variable") ∧
    (req.«variables» = [] → req.measures ≠ [] → req.rows ≠ [] →
      ∃ s, buildQuery req = Except.ok s) := by
  refine ⟨fun hv => ?_, fun hv hm => ?_, fun hv hm hr => ?_⟩
  · have hitems : itemsOf {req with measures := ms} = itemsOf req := by
      simp [itemsOf, hv]
    unfold buildQuery
    rw [hitems]
  · rw [buildQuery, if_pos (by simp [itemsOf, hv, hm])]
  · exact buildQuery_ok_total req (by simp [itemsOf, hv, hm]) hr

/-- Witness for C10: the three clauses evaluated on concrete requests. -/
theorem columns_priority_witness :
    buildQuery ⟨"Cube", ["[Measures].[X]"], ["[V].[Total]"], [⟨"D", "H", "L", none⟩], []⟩ =
      buildQuery {(⟨"Cube", ["[Measures].[X]"], ["[V].[Total]"], [⟨"D", "H", "L", none⟩], []⟩ :
        QueryRequest) with measures := ["other"]} ∧
    buildQuery ⟨"Cube", [], [], [⟨"D", "H", "L", none⟩], []⟩ =
      Except.error "Debe especificar al menos una medida o variable" ∧
    ∃ s, buildQuery ⟨"Cube", ["[Measures].[X]"], [], [⟨"D", "H", "L", none⟩], []⟩ =
      Except.ok s :=
  ⟨(columns_priority _ ["other"]).1 (by decide),
    (columns_priority ⟨"Cube", [], [], [⟨"D", "H", "L", none⟩], []⟩ []).2.1 rfl rfl,
    (columns_priority ⟨"Cube", ["[Measures].[X]"], [], [⟨"D", "H", "L", none⟩], []⟩ []).2.2
      rfl (by decide) (by decide)⟩

/-- C2, counterexample: a request whose single filter (with a non-empty
member list) names the hierarchy `"H"` that is already among the row
selections is synthesized WITHOUT the filter's member-set literal — the
filter is silently dropped from the CROSSJOIN chain. -/
theorem filters_in_crossjoin_counterexample :
    (⟨"Cube", ["[Measures].[X]"], [], [⟨"D", "H", "L", none⟩],
        [⟨"D", "H", ["[H].[m]"]⟩]⟩ : QueryRequest).filters =
      [⟨"D", "H", ["[H].[m]"]⟩] ∧
    buildQuery ⟨"Cube", ["[Measures].[X]"], [], [⟨"D", "H", "L", none⟩],
        [⟨"D", "H", ["[H].[m]"]⟩]⟩ =
      Except.ok "SELECT \n    \x7b [Measures].[X] \x7d ON COLUMNS,\n    NON EMPTY H.[L].MEMBERS ON ROWS\nFROM [Cube]" ∧
    ¬ strIn (setLiteral ["[H].[m]"])
      "SELECT \n    \x7b [Measures].[X] \x7d ON COLUMNS,\n    NON EMPTY H.[L].MEMBERS ON ROWS\nFROM [Cube]" := by
  refine ⟨by decide, ?_, ?_⟩
  · set_option maxRecDepth 8000 in decide
  · set_option maxRecDepth 8000 in decide

/-- C2, amended: a filter with a non-empty member list is folded into
the CROSSJOIN chain of the ROWS axis when (request path) its hierarchy
is not already among the row selections — filters whose hierarchy is on
ROWS are dropped — and always in the interactive path; in both paths
the emitted statement ends at the FROM clause, so no WHERE/slicer
clause is ever emitted. -/
theorem filters_in_crossjoin_amended :
    (∀ (req : QueryRequest) (f : FilterConfig), f ∈ req.filters → f.members ≠ [] →
      (∀ row ∈ req.rows, row.hierarchy ≠ f.hierarchy) →
      ∀ s, buildQuery req = Except.ok s →
      strIn ("CROSSJOIN(" ++ setLiteral f.members ++ ", ") s) ∧
    (∀ (req : QueryRequest) (s : String), buildQuery req = Except.ok s →
      ∃ body, s = body ++ (" ON ROWS\nFROM " ++ ("[" ++ req.catalog ++ "]"))) ∧
    (∀ (ms vs : List String) (rowDims : List RowDimension) (wfs : List WhereFilter)
      (cube : String) (wf : WhereFilter), wf ∈ wfs →
      strIn ("CROSSJOIN(" ++ wf.mdx ++ ", ") (generateMdx ms vs rowDims wfs cube)) ∧
    (∀ (ms vs : List String) (rowDims : List RowDimension) (wfs : List WhereFilter)
      (cube : String), ∃ body, generateMdx ms vs rowDims wfs cube = body ++ ("\nFROM " ++ cube)) := by
  refine ⟨?_, ?_, ?_, ?_⟩
  · intro req f hf hm hrows s hok
    obtain ⟨p, rest, hmap, hitems, rfl⟩ := buildQuery_ok_inv req s hok
    have hany : (req.rows.any fun row => row.hierarchy = f.hierarchy) = false := by
      rw [List.any_eq_false]
      intro row hrow
      simpa using hrows row hrow
    have hfold := strIn_foldFilters_of_mem req.rows req.filters
      (rest.foldl (fun acc part => crossjoin part acc) p) f hf hm hany
    unfold assembleMdx
    exact strIn_of_append _ _ _ (strIn_of_append _ _ _ (strIn_of_append_right _ _ _ hfold))
  · intro req s hok
    obtain ⟨p, rest, hmap, hitems, rfl⟩ := buildQuery_ok_inv req s hok
    refine ⟨"SELECT \n    " ++ setLiteral (itemsOf req) ++ " ON COLUMNS,\n    NON EMPTY " ++
      foldFilters req.rows req.filters (rest.foldl (fun acc part => crossjoin part acc) p), ?_⟩
    unfold assembleMdx
    rw [strAppend_assoc]
  · intro ms vs rowDims wfs cube wf hwf
    have hfold := strIn_foldWhere_of_mem wfs
      (rowDims.foldl (fun acc dim => crossjoin dim.mdx acc) (setLiteral vs)) wf hwf
    unfold generateMdx
    exact strIn_of_append _ _ _ (strIn_of_append _ _ _ (strIn_of_append _ _ _
      (strIn_of_append _ _ _ (strIn_of_append_right _ _ _ hfold))))
  · intro ms vs rowDims wfs cube
    unfold generateMdx
    rw [strAppend_assoc]
    exact ⟨_, rfl⟩

/-- Witness for C2: the eligible-filter clause, the FROM-terminated
shape and the interactive clauses discharged on concrete inputs. -/
theorem filters_in_crossjoin_amended_witness :
    strIn ("CROSSJOIN(" ++ setLiteral ["[H2].[m]"] ++ ", ")
      "SELECT \n    \x7b [Measures].[X] \x7d ON COLUMNS,\n    NON EMPTY CROSSJOIN(\x7b [H2].[m] \x7d, H.[L].MEMBERS) ON ROWS\nFROM [Cube]" ∧
    (∃ body, "SELECT \n    \x7b [Measures].[X] \x7d ON COLUMNS,\n    NON EMPTY CROSSJOIN(\x7b [H2].[m] \x7d, H.[L].MEMBERS) ON ROWS\nFROM [Cube]" =
      body ++ (" ON ROWS\nFROM " ++ ("[" ++ "Cube" ++ "]"))) ∧
    strIn ("CROSSJOIN(" ++ "\x7b [F].[m] \x7d" ++ ", ")
      (generateMdx ["[Measures].[M]"] ["[V].[Total]"] [] [⟨"\x7b [F].[m] \x7d"⟩] "[Cube]") ∧
    (∃ body, generateMdx ["[Measures].[M]"] ["[V].[Total]"] [] [] "[Cube]" =
      body ++ ("\nFROM " ++ "[Cube]")) :=
  ⟨filters_in_crossjoin_amended.1
      ⟨"Cube", ["[Measures].[X]"], [], [⟨"D", "H", "L", none⟩], [⟨"D", "H2", ["[H2].[m]"]⟩]⟩
      ⟨"D", "H2", ["[H2].[m]"]⟩ (by decide) (by decide) (by decide) _
      (by set_option maxRecDepth 8000 in decide),
    filters_in_crossjoin_amended.2.1
      ⟨"Cube", ["[Measures].[X]"], [], [⟨"D", "H", "L", none⟩], [⟨"D", "H2", ["[H2].[m]"]⟩]⟩ _
      (by set_option maxRecDepth 8000 in decide),
    filters_in_crossjoin_amended.2.2.1 ["[Measures].[M]"] ["[V].[Total]"] [] [⟨"\x7b [F].[m] \x7d"⟩]
      "[Cube]" ⟨"\x7b [F].[m] \x7d"⟩ (by decide),
    filters_in_crossjoin_amended.2.2.2 ["[Measures].[M]"] ["[V].[Total]"] [] [] "[Cube]"⟩

/-- C4: for every snapshot and every `(dimension, hierarchy, level)`
request, the resolver's output is a permutation of the filtered
(All-excluded) candidate rows, ordered by the fixed priority chain:
ascending explicit member ordinal when that column is present, else
ascending generic ordinal when present, else by key — numerically when
every candidate key parses as a number, as strings otherwise — else
alphabetically by caption. -/
theorem member_ordering_chain (snap : Snapshot) (dimension hierarchy level : String) :
    sortedMembers snap dimension hierarchy level ~
      filteredMembers snap dimension hierarchy level ∧
    (if snap.hasMiembroOrdinal then
        List.Sorted ordLe (sortedMembers snap dimension hierarchy level)
      else if snap.hasOrdinal then
        List.Sorted genOrdLe (sortedMembers snap dimension hierarchy level)
      else if snap.hasMiembroKey then
        (if allKeysNumeric (filteredMembers snap dimension hierarchy level) then
          List.Sorted keyNumLe (sortedMembers snap dimension hierarchy level)
        else List.Sorted keyStrLe (sortedMembers snap dimension hierarchy level))
      else List.Sorted captionLe (sortedMembers snap dimension hierarchy level)) := by
  constructor
  · simp only [sortedMembers]
    split_ifs <;> exact List.perm_insertionSort _ _
  · simp only [sortedMembers]
    split_ifs <;> exact List.sorted_insertionSort _ _

/-- Two permuted lists strictly sorted by the same integer key are
equal. -/
theorem eq_of_perm_of_pairwise_lt {α : Type} (f : α → Int) :
    ∀ {l₁ l₂ : List α}, l₁ ~ l₂ → l₁.Pairwise (fun a b => f a < f b) →
      l₂.Pairwise (fun a b => f a < f b) → l₁ = l₂
  | [], _, h, _, _ => h.nil_eq
  | a :: t₁, l₂, h, h₁, h₂ => by
    cases l₂ with
    | nil => exact absurd h.symm.nil_eq (by simp)
    | cons b t₂ =>
      have hab : a = b := by
        by_contra hne
        have ha : a ∈ t₂ := by
          rcases List.mem_cons.mp (h.mem_iff.mp (List.mem_cons_self a t₁)) with h' | h'
          · exact absurd h' hne
          · exact h'
        have hb : b ∈ t₁ := by
          rcases List.mem_cons.mp (h.symm.mem_iff.mp (List.mem_cons_self b t₂)) with h' | h'
          · exact absurd h'.symm hne
          · exact h'
        have hlt₁ : f a < f b := (List.pairwise_cons.mp h₁).1 b hb
        have hlt₂ : f b < f a := (List.pairwise_cons.mp h₂).1 a ha
        exact absurd hlt₁ (not_lt.mpr hlt₂.le)
      subst hab
      rw [eq_of_perm_of_pairwise_lt f h.cons_inv
        (List.pairwise_cons.mp h₁).2 (List.pairwise_cons.mp h₂).2]

/-- A snapshot row with the explicit-ordinal and level columns
populated. -/
def ordRow (u c : String) (o : Int) : MemberRow := ⟨"D", "H", u, c, some "L", o, 0, "k"⟩

/-- Two rows sharing the ordinal value 5, in one order… -/
def ordSnap1 : Snapshot := ⟨[ordRow "[H].[a]" "B" 5, ordRow "[H].[b]" "C" 5], true, true, false, false, true⟩

/-- …and the same two rows in the opposite order. -/
def ordSnap2 : Snapshot := ⟨[ordRow "[H].[b]" "C" 5, ordRow "[H].[a]" "B" 5], true, true, false, false, true⟩

/-- C9, counterexample: two snapshots whose rows are permutations of each
other, every member carrying an explicit ordinal (the ordinal column is
present and populated), for which the resolver returns the members in
different orders — the tie on the shared ordinal value 5 is broken by
input order, so the output is NOT invariant under shuffling. -/
theorem member_order_shuffle_counterexample :
    ordSnap1.hasMiembroOrdinal = true ∧
    ordSnap1.rows ~ ordSnap2.rows ∧
    get_dimension_members ordSnap1 "D" "H" "L" ≠ get_dimension_members ordSnap2 "D" "H" "L" := by
  refine ⟨rfl, List.Perm.swap _ _ [], by decide⟩

/-- C9, amended: when the explicit-ordinal column is present, the level
column is present (so candidate filtering does not depend on row order),
and the candidates' ordinal values are pairwise distinct, the resolver's
output is identical for any two permutations of the snapshot rows. -/
theorem member_order_shuffle_amended (rows₁ rows₂ : List MemberRow) (b₃ b₄ b₅ : Bool)
    (dimension hierarchy level : String) (hperm : rows₁ ~ rows₂)
    (hdistinct : (filteredMembers ⟨rows₁, true, true, b₃, b₄, b₅⟩ dimension hierarchy
      level).Pairwise fun a b => a.miembroOrdinal ≠ b.miembroOrdinal) :
    get_dimension_members ⟨rows₁, true, true, b₃, b₄, b₅⟩ dimension hierarchy level =
      get_dimension_members ⟨rows₂, true, true, b₃, b₄, b₅⟩ dimension hierarchy level := by
  have hsymm : ∀ {x y : MemberRow}, x.miembroOrdinal ≠ y.miembroOrdinal →
      y.miembroOrdinal ≠ x.miembroOrdinal := fun h => h.symm
  have hfp : filteredMembers ⟨rows₁, true, true, b₃, b₄, b₅⟩ dimension hierarchy level ~
      filteredMembers ⟨rows₂, true, true, b₃, b₄, b₅⟩ dimension hierarchy level :=
    hperm.filter _
  have hperm₁ := List.perm_insertionSort ordLe
    (filteredMembers ⟨rows₁, true, true, b₃, b₄, b₅⟩ dimension hierarchy level)
  have hperm₂ := List.perm_insertionSort ordLe
    (filteredMembers ⟨rows₂, true, true, b₃, b₄, b₅⟩ dimension hierarchy level)
  have hP₁ := (hperm₁.pairwise_iff hsymm).mpr hdistinct
  have hP₂ := (hperm₂.pairwise_iff hsymm).mpr ((hfp.pairwise_iff hsymm).mp hdistinct)
  have hS₁ := List.sorted_insertionSort ordLe
    (filteredMembers ⟨rows₁, true, true, b₃, b₄, b₅⟩ dimension hierarchy level)
  have hS₂ := List.sorted_insertionSort ordLe
    (filteredMembers ⟨rows₂, true, true, b₃, b₄, b₅⟩ dimension hierarchy level)
  have hlt₁ : (List.insertionSort ordLe (filteredMembers ⟨rows₁, true, true, b₃, b₄, b₅⟩
      dimension hierarchy level)).Pairwise
      (fun a b => a.miembroOrdinal < b.miembroOrdinal) :=
    (hS₁.and hP₁).imp fun h => lt_of_le_of_ne h.1 h.2
  have hlt₂ : (List.insertionSort ordLe (filteredMembers ⟨rows₂, true, true, b₃, b₄, b₅⟩
      dimension hierarchy level)).Pairwise
      (fun a b => a.miembroOrdinal < b.miembroOrdinal) :=
    (hS₂.and hP₂).imp fun h => lt_of_le_of_ne h.1 h.2
  have heq := eq_of_perm_of_pairwise_lt (fun r => r.miembroOrdinal)
    (hperm₁.trans (hfp.trans hperm₂.symm)) hlt₁ hlt₂
  show (List.insertionSort ordLe (filteredMembers ⟨rows₁, true, true, b₃, b₄, b₅⟩
      dimension hierarchy level)).map (fun r => (r.caption, r.uniqueName)) = _
  rw [heq]
  rfl

/-- Witness for C9: the amended claim discharged on two concrete
two-row snapshots with distinct ordinals 1 and 2. -/
theorem member_order_shuffle_amended_witness :
    get_dimension_members ⟨[ordRow "[H].[a]" "B" 1, ordRow "[H].[b]" "C" 2],
        true, true, false, false, true⟩ "D" "H" "L" =
      get_dimension_members ⟨[ordRow "[H].[b]" "C" 2, ordRow "[H].[a]" "B" 1],
        true, true, false, false, true⟩ "D" "H" "L" :=
  member_order_shuffle_amended _ _ false false true "D" "H" "L" (List.Perm.swap _ _ [])
    (by decide)

end OlapXtractr
